import Mathlib

/-!
Verification of the `ai-sandbox-landlock` launcher (`src/main.rs`).

The development shallowly embeds the policy-compilation and enforcement
engine: the fixed filesystem-capability domain, the ABI negotiation probe
(`supported_access`), the policy compiler (`access_from_permissions`,
`access_from_control`, the handled-mask union and the per-path rules of
`setup_landlock_profile` / `setup_landlock_root`), the diagnostic name
lists (`access_names`, `unsupported_names`, `print_ruleset_root`), the
pre-flight availability check (`perform_landlock_check`), the launcher
(`run_command`) and the enforce-and-run fragment of `main`.

Kernel-side effects (ruleset creation, rule loading, self-restriction) are
modelled by a `Kernel` record of outcome oracles; the filesystem is
modelled by an `isDir` oracle; the `HOME` environment variable and the
child's termination status are explicit parameters.  String scanning is
implemented structurally over `List Char` so that every definition
evaluates inside the kernel.
-/

namespace AiSandboxLandlock

deriving instance DecidableEq for Except

/-- Scans `haystack` for `needle` as a prefix: helper for substring search
(mirrors Rust `str::contains` used on the LSM list). -/
def prefixMatches : List Char → List Char → Bool
  | [], _ => true
  | _ :: _, [] => false
  | a :: as, b :: bs => a == b && prefixMatches as bs

/-- Substring test over char lists, mirroring Rust `str::contains`. -/
def containsSub (needle : List Char) : List Char → Bool
  | [] => prefixMatches needle []
  | x :: xs => prefixMatches needle (x :: xs) || containsSub needle xs

/-- Splits a char list at every occurrence of `c`, mirroring Rust
`str::split(char)` as used by `parse_kernel_version_ge`. -/
def splitOnChar (c : Char) : List Char → List (List Char)
  | [] => [[]]
  | x :: xs =>
    let rest := splitOnChar c xs
    if x == c then [] :: rest
    else
      match rest with
      | [] => [[x]]
      | r :: rs => (x :: r) :: rs

/-- Digit-string parsing, mirroring the success domain of Rust
`str::parse::<u32>` (without the optional sign, handled by the caller). -/
def charsToNat (cs : List Char) : Option Nat :=
  if cs ≠ [] ∧ cs.all Char.isDigit then
    some (cs.foldl (fun n c => n * 10 + (c.toNat - 48)) 0)
  else none

/-- Mirrors Rust `s.parse::<u32>().unwrap_or(0)`: an optional leading `+`,
then decimal digits whose value must fit in 32 bits, else `0`. -/
def parseU32orZero (cs : List Char) : Nat :=
  let t := match cs with
    | '+' :: rest => rest
    | other => other
  match charsToNat t with
  | some n => if n < 4294967296 then n else 0
  | none => 0

/-- The kernel `AccessFs` flag domain of the external landlock crate (the
crate version in use exposes `Truncate`, hence models crate ABI up to V3,
of which the program only ever names V1 and V2). -/
inductive AccessFs
  | Execute
  | WriteFile
  | ReadFile
  | ReadDir
  | RemoveDir
  | RemoveFile
  | MakeChar
  | MakeDir
  | MakeReg
  | MakeSock
  | MakeFifo
  | MakeBlock
  | MakeSym
  | Refer
  | Truncate
deriving DecidableEq, Repr

/-- The ABI revisions the program enumerates (`ABI::V1`, `ABI::V2` in
`supported_access` and `setup_landlock_root`). -/
inductive ABI
  | V1
  | V2
deriving DecidableEq, Repr

/-- Mirrors the landlock crate's `AccessFs::from_all`: the full access set
of an ABI revision.  V1 holds the thirteen original rights; V2 adds
`Refer`.  Neither contains `Truncate`, which belongs to ABI v3 (the
repository's own test notes that `Truncate` is typically unsupported on
V1). -/
def AccessFs.from_all : ABI → Finset AccessFs
  | ABI.V1 =>
    {AccessFs.Execute, AccessFs.WriteFile, AccessFs.ReadFile, AccessFs.ReadDir,
     AccessFs.RemoveDir, AccessFs.RemoveFile, AccessFs.MakeChar, AccessFs.MakeDir,
     AccessFs.MakeReg, AccessFs.MakeSock, AccessFs.MakeFifo, AccessFs.MakeBlock,
     AccessFs.MakeSym}
  | ABI.V2 =>
    insert AccessFs.Refer
      {AccessFs.Execute, AccessFs.WriteFile, AccessFs.ReadFile, AccessFs.ReadDir,
       AccessFs.RemoveDir, AccessFs.RemoveFile, AccessFs.MakeChar, AccessFs.MakeDir,
       AccessFs.MakeReg, AccessFs.MakeSock, AccessFs.MakeFifo, AccessFs.MakeBlock,
       AccessFs.MakeSym}

/-- Mirrors the landlock crate's `AccessFs::from_read`: the read-only
rights of an ABI revision (`from_all` intersected with
`Execute | ReadFile | ReadDir`). -/
def AccessFs.from_read (abi : ABI) : Finset AccessFs :=
  AccessFs.from_all abi ∩ {AccessFs.Execute, AccessFs.ReadFile, AccessFs.ReadDir}

/-- The `Permissions` record of `src/main.rs`: per-capability optional
booleans decoded from YAML, absent meaning unset. -/
structure Permissions where
  read_file : Option Bool := none
  read_dir : Option Bool := none
  execute : Option Bool := none
  write_file : Option Bool := none
  remove_file : Option Bool := none
  remove_dir : Option Bool := none
  truncate : Option Bool := none
deriving DecidableEq, Repr

/-- The `ControlAccess` record of `src/main.rs` (same shape as
`Permissions`, kept as a distinct type exactly as in the source). -/
structure ControlAccess where
  read_file : Option Bool := none
  read_dir : Option Bool := none
  execute : Option Bool := none
  write_file : Option Bool := none
  remove_file : Option Bool := none
  remove_dir : Option Bool := none
  truncate : Option Bool := none
deriving DecidableEq, Repr

/-- The `AccessRootGroup` record: a path list sharing one `Permissions`. -/
structure AccessRootGroup where
  paths : List String
  permissions : Permissions
deriving DecidableEq, Repr

/-- The `CommandSpec` record: binary, arguments, optional working
directory and environment overlay.  The `HashMap<String, String>`
environment is modelled as an association list. -/
structure CommandSpec where
  binary : String
  args : List String := []
  working_dir : Option String := none
  env : Option (List (String × String)) := none
deriving DecidableEq, Repr

/-- The `Profile` record of `src/main.rs`.  The `HashMap<String,
AccessRootGroup>` is modelled as an association list of (name, group). -/
structure Profile where
  description : Option String := none
  access_roots : List (String × AccessRootGroup) := []
  control_access : ControlAccess := {}
  command : CommandSpec
  log_level : Option String := none
  dry_run : Option Bool := none
deriving DecidableEq, Repr

/-- The top-level `Config` record: optional version and a profile map
(modelled as an association list). -/
structure Config where
  version : Option Nat := none
  profiles : List (String × Profile) := []
deriving DecidableEq, Repr

/-- Mirrors `access_from_permissions`: conditional inserts of each of the
seven nameable capabilities, `unwrap_or(false)` on each optional. -/
def access_from_permissions (perms : Permissions) : Finset AccessFs :=
  let s : Finset AccessFs := ∅
  let s := if perms.read_file.getD false then insert AccessFs.ReadFile s else s
  let s := if perms.read_dir.getD false then insert AccessFs.ReadDir s else s
  let s := if perms.execute.getD false then insert AccessFs.Execute s else s
  let s := if perms.write_file.getD false then insert AccessFs.WriteFile s else s
  let s := if perms.remove_file.getD false then insert AccessFs.RemoveFile s else s
  let s := if perms.remove_dir.getD false then insert AccessFs.RemoveDir s else s
  let s := if perms.truncate.getD false then insert AccessFs.Truncate s else s
  s

/-- Mirrors `access_from_control` (same conditional inserts over the
`ControlAccess` record). -/
def access_from_control (ctrl : ControlAccess) : Finset AccessFs :=
  let s : Finset AccessFs := ∅
  let s := if ctrl.read_file.getD false then insert AccessFs.ReadFile s else s
  let s := if ctrl.read_dir.getD false then insert AccessFs.ReadDir s else s
  let s := if ctrl.execute.getD false then insert AccessFs.Execute s else s
  let s := if ctrl.write_file.getD false then insert AccessFs.WriteFile s else s
  let s := if ctrl.remove_file.getD false then insert AccessFs.RemoveFile s else s
  let s := if ctrl.remove_dir.getD false then insert AccessFs.RemoveDir s else s
  let s := if ctrl.truncate.getD false then insert AccessFs.Truncate s else s
  s

/-- Mirrors `supported_access`: probe `[ABI::V2, ABI::V1]` in order with a
ruleset-creation attempt (`probe`), return `from_all` of the first
revision whose probe succeeds, else fall back to `from_all(ABI::V1)`. -/
def supported_access (probe : ABI → Bool) : Finset AccessFs :=
  match [ABI.V2, ABI.V1].find? probe with
  | some abi => AccessFs.from_all abi
  | none => AccessFs.from_all ABI.V1

/-- Mirrors `access_names`: the diagnostic names of the seven nameable
capabilities present in a set, in source push order. -/
def access_names (set : Finset AccessFs) : List String :=
  (if AccessFs.ReadFile ∈ set then ["ReadFile"] else []) ++
  (if AccessFs.ReadDir ∈ set then ["ReadDir"] else []) ++
  (if AccessFs.Execute ∈ set then ["Execute"] else []) ++
  (if AccessFs.WriteFile ∈ set then ["WriteFile"] else []) ++
  (if AccessFs.RemoveFile ∈ set then ["RemoveFile"] else []) ++
  (if AccessFs.RemoveDir ∈ set then ["RemoveDir"] else []) ++
  (if AccessFs.Truncate ∈ set then ["Truncate"] else [])

/-- Mirrors `unsupported_names`: for each of the seven nameable
capabilities, report its name when it is requested but absent from
`supported_access()`.  The construction probe is passed explicitly. -/
def unsupported_names (probe : ABI → Bool) (requested : Finset AccessFs) : List String :=
  let sup := supported_access probe
  (if AccessFs.ReadFile ∈ requested ∧ AccessFs.ReadFile ∉ sup then ["ReadFile"] else []) ++
  (if AccessFs.ReadDir ∈ requested ∧ AccessFs.ReadDir ∉ sup then ["ReadDir"] else []) ++
  (if AccessFs.Execute ∈ requested ∧ AccessFs.Execute ∉ sup then ["Execute"] else []) ++
  (if AccessFs.WriteFile ∈ requested ∧ AccessFs.WriteFile ∉ sup then ["WriteFile"] else []) ++
  (if AccessFs.RemoveFile ∈ requested ∧ AccessFs.RemoveFile ∉ sup then ["RemoveFile"] else []) ++
  (if AccessFs.RemoveDir ∈ requested ∧ AccessFs.RemoveDir ∉ sup then ["RemoveDir"] else []) ++
  (if AccessFs.Truncate ∈ requested ∧ AccessFs.Truncate ∉ sup then ["Truncate"] else [])

/-- Joins a base path and a relative remainder the way `PathBuf::push`
does in `normalize_path`: an absolute remainder replaces the base. -/
def joinPath (base : String) (rel : List Char) : String :=
  match rel with
  | '/' :: _ => String.mk rel
  | _ =>
    match base.toList.getLast? with
    | some '/' => base ++ String.mk rel
    | _ => base ++ "/" ++ String.mk rel

/-- Mirrors `normalize_path`: home-relative expansion only.  A leading
`~/` is replaced by `$HOME` (failing when `HOME` is unset, here the
explicit `home` parameter); any other path is returned unchanged. -/
def normalize_path (home : Option String) (p : String) : Except String String :=
  match p.toList with
  | '~' :: '/' :: rest =>
    match home with
    | some h => Except.ok (joinPath h rest)
    | none => Except.error "cannot resolve $HOME"
  | _ => Except.ok p

/-- Normalizes every path of a group in order, propagating the first
normalization error (the per-group loop body of
`setup_landlock_profile`). -/
def normalizeAll (home : Option String) : List String → Except String (List String)
  | [] => Except.ok []
  | p :: ps =>
    match normalize_path home p with
    | Except.error e => Except.error e
    | Except.ok n =>
      match normalizeAll home ps with
      | Except.error e => Except.error e
      | Except.ok ns => Except.ok (n :: ns)

/-- Mirrors the handled-mask computation of `setup_landlock_profile` (and
identically `print_ruleset_profile`): start empty, insert the
`control_access` set, then insert every group's permission set. -/
def profileHandled (p : Profile) : Finset AccessFs :=
  let handled : Finset AccessFs := ∅
  let handled := handled ∪ access_from_control p.control_access
  p.access_roots.foldl (fun h g => h ∪ access_from_permissions g.2.permissions) handled

/-- The rules one group contributes: each normalized path bound to the
group's own permission set (`path_beneath_rules(&norm_paths, allowed)`). -/
def groupRules (home : Option String) (g : AccessRootGroup) :
    Except String (List (String × Finset AccessFs)) :=
  match normalizeAll home g.paths with
  | Except.error e => Except.error e
  | Except.ok ns => Except.ok (ns.map (fun n => (n, access_from_permissions g.permissions)))

/-- The compiled rule list of `setup_landlock_profile`: the concatenation
of every group's rules in group order, with no merging or deduplication of
equal paths. -/
def rulesOfGroups (home : Option String) :
    List (String × AccessRootGroup) → Except String (List (String × Finset AccessFs))
  | [] => Except.ok []
  | (_, g) :: gs =>
    match groupRules home g with
    | Except.error e => Except.error e
    | Except.ok rs =>
      match rulesOfGroups home gs with
      | Except.error e => Except.error e
      | Except.ok rest => Except.ok (rs ++ rest)

/-- The full compiled rule list of a profile. -/
def profileRules (home : Option String) (p : Profile) :
    Except String (List (String × Finset AccessFs)) :=
  rulesOfGroups home p.access_roots

/-- Modelled from the spec: the downstream kernel semantics of overlapping
rules (not present in `src/`) — for a handled capability, the effective
allowed set at a path is the union of the allowed sets of every loaded
rule bound to that path. -/
def effectiveAllowed (rules : List (String × Finset AccessFs)) (path : String) :
    Finset AccessFs :=
  (rules.filter (fun r => r.1 = path)).foldr (fun r acc => r.2 ∪ acc) ∅

/-- Outcome oracles for the kernel-side landlock operations invoked by the
Enforcer: `handle_access`, `create`, `add_rules` (per group call, given
the normalized paths and the allowed set) and `restrict_self`. -/
structure Kernel where
  handleAccessOk : Finset AccessFs → Bool
  createOk : Finset AccessFs → Bool
  addRulesOk : List String → Finset AccessFs → Bool
  restrictOk : Bool

/-- The per-group loop of `setup_landlock_profile`: normalize the group's
paths (a failure aborts), then issue `add_rules` (a failure aborts). -/
def addGroupRules (k : Kernel) (home : Option String) :
    List (String × AccessRootGroup) → Except String Unit
  | [] => Except.ok ()
  | (_, g) :: gs =>
    match normalizeAll home g.paths with
    | Except.error e => Except.error e
    | Except.ok ns =>
      if k.addRulesOk ns (access_from_permissions g.permissions) then
        addGroupRules k home gs
      else Except.error "add_rules failed"

/-- Mirrors `setup_landlock_profile`: compute the handled union, then
`handle_access(handled)`, `create()`, the per-group `add_rules` loop and
finally `restrict_self()`, each failure aborting via `?`.  The mask passed
to `handle_access`/`create` is exactly `profileHandled p`, unfiltered. -/
def setup_landlock_profile (k : Kernel) (home : Option String) (p : Profile) :
    Except String Unit :=
  let handled := profileHandled p
  if k.handleAccessOk handled then
    if k.createOk handled then
      match addGroupRules k home p.access_roots with
      | Except.error e => Except.error e
      | Except.ok () =>
        if k.restrictOk then Except.ok () else Except.error "restrict_self failed"
    else Except.error "create failed"
  else Except.error "handle_access failed"

/-- The allowed (= handled) set of `setup_landlock_root`: read-only maps
to `AccessFs::from_read(ABI::V1) | AccessFs::Execute`, otherwise
`AccessFs::from_all(ABI::V1)`. -/
def setupRootAllowed (read_only : Bool) : Finset AccessFs :=
  if read_only then AccessFs.from_read ABI.V1 ∪ {AccessFs.Execute}
  else AccessFs.from_all ABI.V1

/-- The synthetic rule list of `setup_landlock_root`: the single
normalized root bound to `setupRootAllowed`. -/
def rootRules (home : Option String) (root : String) (read_only : Bool) :
    Except String (List (String × Finset AccessFs)) :=
  match normalize_path home root with
  | Except.error e => Except.error e
  | Except.ok n => Except.ok [(n, setupRootAllowed read_only)]

/-- Mirrors `setup_landlock_root`: normalize the root, build the ruleset
for `handled = allowed`, add the single path rule, restrict. -/
def setup_landlock_root (k : Kernel) (home : Option String) (root : String)
    (read_only : Bool) : Except String Unit :=
  match normalize_path home root with
  | Except.error e => Except.error e
  | Except.ok normalized =>
    let allowed := setupRootAllowed read_only
    let handled := allowed
    if k.handleAccessOk handled then
      if k.createOk handled then
        if k.addRulesOk [normalized] allowed then
          if k.restrictOk then Except.ok () else Except.error "restrict_self failed"
        else Except.error "add_rules failed"
      else Except.error "create failed"
    else Except.error "handle_access failed"

/-- The allowed set printed by `print_ruleset_root`: built through
`access_from_permissions` from the seven explicit booleans (read-only:
three set; otherwise all seven set, including `truncate`). -/
def printRootAllowed (read_only : Bool) : Finset AccessFs :=
  if read_only then
    access_from_permissions
      { read_file := some true, read_dir := some true, execute := some true }
  else
    access_from_permissions
      { read_file := some true, read_dir := some true, execute := some true,
        write_file := some true, remove_file := some true, remove_dir := some true,
        truncate := some true }

/-- Mirrors `parse_kernel_version_ge`: split the release string on `.`,
require at least two parts, parse major/minor with `unwrap_or(0)` and
compare lexicographically. -/
def parse_kernel_version_ge (osrelease : String) (wantMajor wantMinor : Nat) : Bool :=
  let parts := splitOnChar '.' osrelease.toList
  if parts.length < 2 then false
  else
    let major := parseU32orZero (parts.headD [])
    let minor := parseU32orZero ((parts.drop 1).headD [])
    (major > wantMajor) || (major == wantMajor && minor >= wantMinor)

/-- Whether the LSM list names landlock, mirroring
`lsm_list.contains("landlock")`. -/
def lsmHasLandlock (lsm_list : String) : Bool :=
  containsSub "landlock".toList lsm_list.toList

/-- Mirrors `perform_landlock_check`: kernel release `>= 5.13` and
`landlock` present in the LSM list; both must hold, else `Err`.  The
comment in the source defers any syscall-based construction probe: none is
performed here. -/
def perform_landlock_check (osrelease lsm_list : String) : Except String String :=
  let version_ok := parse_kernel_version_ge osrelease 5 13
  let lsm_ok := lsmHasLandlock lsm_list
  if version_ok && lsm_ok then
    Except.ok "Result: Landlock appears available."
  else Except.error "Landlock not available"

/-- Mirrors `let ll_available = perform_landlock_check().is_ok()` in
`main`. -/
def ll_available (osrelease lsm_list : String) : Bool :=
  match perform_landlock_check osrelease lsm_list with
  | Except.ok _ => true
  | Except.error _ => false

/-- Normalizes environment overlay values: a value starting with `~/` is
expanded via `normalize_path`, any other value passes through
(`run_command`'s env loop). -/
def normalizeEnvValues (home : Option String) :
    List (String × String) → Except String (List (String × String))
  | [] => Except.ok []
  | (k, v) :: rest =>
    let nv : Except String String :=
      match v.toList with
      | '~' :: '/' :: _ => normalize_path home v
      | _ => Except.ok v
    match nv with
    | Except.error e => Except.error e
    | Except.ok n =>
      match normalizeEnvValues home rest with
      | Except.error e => Except.error e
      | Except.ok ns => Except.ok ((k, n) :: ns)

/-- The working-directory check of `run_command`: when present, normalize
it exactly as rule paths are normalized and require `is_dir`, else fail
with a configuration error. -/
def checkWorkingDir (home : Option String) (isDir : String → Bool) :
    Option String → Except String Unit
  | none => Except.ok ()
  | some wd =>
    match normalize_path home wd with
    | Except.error e => Except.error e
    | Except.ok cwd =>
      if isDir cwd then Except.ok ()
      else Except.error ("working_dir does not exist or is not a directory: " ++ cwd)

/-- The pre-spawn preparation of `run_command`: working-directory check
then environment normalization, in source order; no spec means no
checks. -/
def prepareSpec (home : Option String) (isDir : String → Bool) :
    Option CommandSpec → Except String Unit
  | none => Except.ok ()
  | some s =>
    match checkWorkingDir home isDir s.working_dir with
    | Except.error e => Except.error e
    | Except.ok () =>
      match s.env with
      | none => Except.ok ()
      | some envs =>
        match normalizeEnvValues home envs with
        | Except.error e => Except.error e
        | Except.ok _ => Except.ok ()

/-- The observable outcome of `run_command`: a configuration error before
any spawn, a spawn failure, or a spawned child mapped to an exit code. -/
inductive RunOutcome
  | errBeforeSpawn (msg : String)
  | spawnErr (msg : String)
  | spawned (code : Int)
deriving DecidableEq, Repr

/-- Mirrors `run_command`: empty command vector fails; the pre-spawn
checks run; then the child status is mapped — an explicit exit code is
returned as-is and signal termination (no code) maps to `1`.  The spawn
result is the explicit `childStatus` parameter (`Except` for spawn
failure, `Option Int` for code vs. signal). -/
def run_command (home : Option String) (isDir : String → Bool) (cmd : List String)
    (spec : Option CommandSpec) (childStatus : Except String (Option Int)) : RunOutcome :=
  match cmd with
  | [] => RunOutcome.errBeforeSpawn "command vector is empty"
  | _ :: _ =>
    match prepareSpec home isDir spec with
    | Except.error e => RunOutcome.errBeforeSpawn e
    | Except.ok () =>
      match childStatus with
      | Except.error e => RunOutcome.spawnErr e
      | Except.ok (some code) => RunOutcome.spawned code
      | Except.ok none => RunOutcome.spawned 1

/-- The outcome of one enforce-and-run launch: an aborting error, or the
target command ran and produced an exit code. -/
inductive LaunchResult
  | failed (msg : String)
  | ran (code : Int)
deriving DecidableEq, Repr

/-- Mirrors the enforce-and-run fragment of `main` (lines 186–217): empty
command fails; `require_landlock` with unavailable landlock fails;
availability is `perform_landlock_check().is_ok()`; when available, the
profile (or degraded root) enforcement runs and any error aborts the
launch; only then is the command run, its exit code becoming the launch
result. -/
def main_enforce_and_run (k : Kernel) (home : Option String) (isDir : String → Bool)
    (osrelease lsm_list : String) (require_landlock : Bool)
    (selectedProfile : Option Profile) (effectiveRoot : Option String)
    (effectiveReadOnly : Bool) (cmd : List String)
    (childStatus : Except String (Option Int)) : LaunchResult :=
  if cmd.isEmpty then LaunchResult.failed "no command specified"
  else
    let llAvail := ll_available osrelease lsm_list
    if require_landlock && !llAvail then
      LaunchResult.failed "Landlock is required but not available"
    else
      let setupRes : Except String Unit :=
        if llAvail then
          match selectedProfile with
          | some p => setup_landlock_profile k home p
          | none =>
            match effectiveRoot with
            | some r => setup_landlock_root k home r effectiveReadOnly
            | none => Except.error "project root is required"
        else Except.ok ()
      match setupRes with
      | Except.error e => LaunchResult.failed e
      | Except.ok () =>
        match run_command home isDir cmd (selectedProfile.map (fun p => p.command))
            childStatus with
        | RunOutcome.errBeforeSpawn e => LaunchResult.failed e
        | RunOutcome.spawnErr e => LaunchResult.failed e
        | RunOutcome.spawned code => LaunchResult.ran code

/-- The version-check portion of `load_config` (file reading and YAML
decoding are external): a present version other than `1` is rejected, an
absent version is accepted. -/
def load_config_check (cfg : Config) : Except String Config :=
  match cfg.version with
  | some ver => if ver ≠ 1 then Except.error "unsupported config version" else Except.ok cfg
  | none => Except.ok cfg

/-- Scenario A profile: one group `projects` with path `/tmp/proj` and
permissions `{read_file, read_dir}`, all-false `control_access`. -/
def scenarioAProfile : Profile :=
  { access_roots :=
      [("projects",
        { paths := ["/tmp/proj"],
          permissions := { read_file := some true, read_dir := some true } })],
    command := { binary := "/bin/true" } }

/-- A profile requesting only `truncate` through one group — a capability
no probed ABI revision supports. -/
def truncateProfile : Profile :=
  { access_roots :=
      [("media",
        { paths := ["/tmp/m"],
          permissions := { truncate := some true } })],
    command := { binary := "/bin/true" } }

/-- Two groups granting different capability subsets on the identical
path. -/
def sharedPathProfile : Profile :=
  { access_roots :=
      [("g1", { paths := ["/tmp/shared"], permissions := { read_file := some true } }),
       ("g2", { paths := ["/tmp/shared"], permissions := { write_file := some true } })],
    command := { binary := "/bin/true" } }

/-- A kernel oracle on which every landlock operation succeeds. -/
def kernelAllOk : Kernel :=
  { handleAccessOk := fun _ => true,
    createOk := fun _ => true,
    addRulesOk := fun _ _ => true,
    restrictOk := true }

/-- A kernel oracle on which ruleset construction and rule loading succeed
but the final self-restriction fails. -/
def kernelRestrictFails : Kernel :=
  { handleAccessOk := fun _ => true,
    createOk := fun _ => true,
    addRulesOk := fun _ _ => true,
    restrictOk := false }

/-- A config whose version field is absent. -/
def configNoVersion : Config :=
  { profiles := [("minimal", scenarioAProfile)] }

/-- A kernel oracle on which `handle_access` itself fails. -/
def kernelHandleFails : Kernel :=
  { handleAccessOk := fun _ => false,
    createOk := fun _ => true,
    addRulesOk := fun _ _ => true,
    restrictOk := true }

/-- A command spec whose working directory does not exist. -/
def wdSpec : CommandSpec :=
  { binary := "/bin/true", working_dir := some "/nonexistent" }

section Lemmas

/-- Folding set unions from an initial accumulator equals the initial
accumulator joined with the union of the mapped sets. -/
theorem foldl_union_eq (f : (String × AccessRootGroup) → Finset AccessFs) :
    ∀ (l : List (String × AccessRootGroup)) (init : Finset AccessFs),
      List.foldl (fun h g => h ∪ f g) init l =
        init ∪ List.foldr (fun a acc => a ∪ acc) ∅ (l.map f)
  | [], init => by simp
  | g :: gs, init => by
    rw [List.map_cons, List.foldr_cons, List.foldl_cons,
      foldl_union_eq f gs (init ∪ f g), Finset.union_assoc]

/-- Path normalization preserves the number of paths on success. -/
theorem normalizeAll_ok_length (home : Option String) :
    ∀ (ps ns : List String), normalizeAll home ps = Except.ok ns → ns.length = ps.length
  | [], ns, h => by
    unfold normalizeAll at h
    cases h
    rfl
  | p :: ps, ns, h => by
    unfold normalizeAll at h
    cases hn : normalize_path home p with
    | error e => rw [hn] at h; cases h
    | ok n =>
      rw [hn] at h
      cases hr : normalizeAll home ps with
      | error e => rw [hr] at h; cases h
      | ok ms =>
        rw [hr] at h
        cases h
        simp [normalizeAll_ok_length home ps ms hr]

/-- A group contributes exactly one rule per configured path. -/
theorem groupRules_ok_length (home : Option String) (g : AccessRootGroup)
    (rs : List (String × Finset AccessFs)) (h : groupRules home g = Except.ok rs) :
    rs.length = g.paths.length := by
  unfold groupRules at h
  cases hn : normalizeAll home g.paths with
  | error e => rw [hn] at h; cases h
  | ok ns =>
    rw [hn] at h
    cases h
    simp [normalizeAll_ok_length home g.paths ns hn]

/-- The compiled rule list keeps one rule per (group, path) occurrence:
its length is the total path count over all groups. -/
theorem rulesOfGroups_ok_length (home : Option String) :
    ∀ (l : List (String × AccessRootGroup)) (rules : List (String × Finset AccessFs)),
      rulesOfGroups home l = Except.ok rules →
      rules.length = (l.map (fun g => g.2.paths.length)).sum
  | [], rules, h => by
    unfold rulesOfGroups at h
    cases h
    rfl
  | (name, g) :: gs, rules, h => by
    unfold rulesOfGroups at h
    cases hg : groupRules home g with
    | error e => rw [hg] at h; cases h
    | ok rs =>
      rw [hg] at h
      cases hr : rulesOfGroups home gs with
      | error e => rw [hr] at h; cases h
      | ok rest =>
        rw [hr] at h
        cases h
        simp [groupRules_ok_length home g rs hg, rulesOfGroups_ok_length home gs rest hr]

end Lemmas

/-- C1 (counterexample): a profile requesting `Truncate` — a capability
absent from every negotiated `supported_access` outcome — still has
`Truncate` in the handled mask `setup_landlock_profile` passes to kernel
ruleset creation; enforcement proceeds without filtering it out.  This
refutes the claim that a requested-but-unsupported capability is excluded
from the mask passed to ruleset creation. -/
theorem c1_counterexample :
    AccessFs.Truncate ∈ profileHandled truncateProfile ∧
    AccessFs.Truncate ∉ supported_access (fun _ => true) ∧
    AccessFs.Truncate ∉ supported_access (fun _ => false) ∧
    setup_landlock_profile kernelAllOk none truncateProfile = Except.ok () :=
  ⟨by decide, by decide, by decide, by rfl⟩

/-- C1 (amended): the Enforcer passes the full requested union,
unfiltered, to `handle_access`/`create` (the mask it consults is exactly
`profileHandled`); the requested-but-unsupported capabilities are reported
— only in the print-ruleset diagnostics — by `unsupported_names`, which
computes exactly the names of the requested set minus the negotiated set,
never a hard error (for the truncate profile: `["Truncate"]`, while
enforcement still succeeds). -/
theorem c1_unfiltered_mask_and_diagnostics (p : Profile) (probe : ABI → Bool) :
    unsupported_names probe (profileHandled p) =
      access_names (profileHandled p \ supported_access probe) ∧
    (∀ (k : Kernel) (home : Option String),
        k.handleAccessOk (profileHandled p) = false →
        setup_landlock_profile k home p = Except.error "handle_access failed") ∧
    unsupported_names (fun _ => true) (profileHandled truncateProfile) = ["Truncate"] ∧
    setup_landlock_profile kernelAllOk none truncateProfile = Except.ok () := by
  refine ⟨?_, ?_, by decide, by rfl⟩
  · simp [unsupported_names, access_names, Finset.mem_sdiff]
  · intro k home hk
    unfold setup_landlock_profile
    simp [hk]

/-- C1 (witness): a kernel refusing `handle_access` on the scenario-A mask
makes `setup_landlock_profile` fail with the handle-access error, so the
mask it consults is the unfiltered requested union. -/
theorem c1_witness :
    setup_landlock_profile kernelHandleFails none scenarioAProfile =
      Except.error "handle_access failed" :=
  (c1_unfiltered_mask_and_diagnostics scenarioAProfile (fun _ => true)).2.1
    kernelHandleFails none rfl

/-- C2 (code bug): the enforce-and-run availability decision is exactly
the kernel-release string check and the LSM-list check — no construction
probe is consulted.  With release `6.8.0-26-generic` but an unreadable LSM
list, availability is declared false and, for every kernel oracle — even
one on which every ruleset construction succeeds, so the probe would
negotiate the full V2 set — the launch runs the command with no
enforcement attempted at all. -/
theorem c2_stringcheck_is_sole_basis (k : Kernel) :
    (∀ osrelease lsm_list, ll_available osrelease lsm_list =
        (parse_kernel_version_ge osrelease 5 13 && lsmHasLandlock lsm_list)) ∧
    ll_available "6.8.0-26-generic" "<unavailable>" = false ∧
    main_enforce_and_run k (some "/home/user") (fun _ => true) "6.8.0-26-generic"
        "<unavailable>" false (some scenarioAProfile) none false ["/bin/true"]
        (Except.ok (some 0)) = LaunchResult.ran 0 ∧
    supported_access (fun _ => true) = AccessFs.from_all ABI.V2 := by
  refine ⟨?_, by decide, by rfl, by rfl⟩
  intro os lsm
  unfold ll_available perform_landlock_check
  cases hb : (parse_kernel_version_ge os 5 13 && lsmHasLandlock lsm) <;> simp [hb]

/-- C3: once landlock is deemed available and enforcement is attempted on
a profile (ruleset creation issued and succeeding), any failure of a later
enforcement step makes the whole launch fail — the target command is never
run unsandboxed. -/
theorem c3_enforcement_failure_aborts (k : Kernel) (home : Option String)
    (isDir : String → Bool) (osrelease lsm_list : String) (require_landlock : Bool)
    (p : Profile) (effectiveRoot : Option String) (ro : Bool) (cmd : List String)
    (childStatus : Except String (Option Int))
    (hll : ll_available osrelease lsm_list = true)
    (_hhandle : k.handleAccessOk (profileHandled p) = true)
    (_hcreate : k.createOk (profileHandled p) = true)
    (hfail : setup_landlock_profile k home p ≠ Except.ok ()) :
    (∃ e, main_enforce_and_run k home isDir osrelease lsm_list require_landlock
        (some p) effectiveRoot ro cmd childStatus = LaunchResult.failed e) ∧
    (∀ c, main_enforce_and_run k home isDir osrelease lsm_list require_landlock
        (some p) effectiveRoot ro cmd childStatus ≠ LaunchResult.ran c) := by
  cases hempty : cmd.isEmpty with
  | true =>
    have hmain : main_enforce_and_run k home isDir osrelease lsm_list require_landlock
        (some p) effectiveRoot ro cmd childStatus =
        LaunchResult.failed "no command specified" := by
      unfold main_enforce_and_run
      simp [hempty]
    exact ⟨⟨_, hmain⟩, fun c hc => by rw [hmain] at hc; cases hc⟩
  | false =>
    cases hs : setup_landlock_profile k home p with
    | ok u =>
      cases u
      exact absurd hs hfail
    | error e =>
      have hmain : main_enforce_and_run k home isDir osrelease lsm_list require_landlock
          (some p) effectiveRoot ro cmd childStatus = LaunchResult.failed e := by
        unfold main_enforce_and_run
        simp [hempty, hll, hs]
      exact ⟨⟨e, hmain⟩, fun c hc => by rw [hmain] at hc; cases hc⟩

/-- C3 (witness): on a kernel where construction and rule loading succeed
but `restrict_self` fails, the scenario-A launch does not run the
command. -/
theorem c3_witness :
    main_enforce_and_run kernelRestrictFails none (fun _ => true) "5.13.0" "landlock"
        false (some scenarioAProfile) none false ["/bin/true"]
        (Except.ok (some 0)) ≠ LaunchResult.ran 0 :=
  (c3_enforcement_failure_aborts kernelRestrictFails none (fun _ => true) "5.13.0"
    "landlock" false scenarioAProfile none false ["/bin/true"] (Except.ok (some 0))
    (by decide) rfl rfl (by decide)).2 0

/-- C4 (counterexample): with the read-only toggle unset, the allowed set
`setup_landlock_root` actually enforces is `AccessFs::from_all(ABI::V1)`,
which does not contain `Truncate` and differs from the full
seven-capability domain that `print_ruleset_root` displays for the same
case.  This refutes the claim that the unset-toggle allowed set is the
full seven-capability domain. -/
theorem c4_counterexample :
    setupRootAllowed false ≠ printRootAllowed false ∧
    AccessFs.Truncate ∉ setupRootAllowed false ∧
    AccessFs.Truncate ∈ printRootAllowed false :=
  ⟨by decide, by decide, by decide⟩

/-- C4 (amended): degraded single-root mode produces exactly one synthetic
rule binding the normalized root; with the read-only toggle the allowed
set is exactly {ReadFile, ReadDir, Execute} (as both enforced and
printed); with the toggle unset the enforced set is
`AccessFs::from_all(ABI::V1)` — `Truncate` excluded — while the print
diagnostic shows the full seven-capability domain. -/
theorem c4_degraded_root_rule (home : Option String) (root n : String) (ro : Bool)
    (hn : normalize_path home root = Except.ok n) :
    rootRules home root ro = Except.ok [(n, setupRootAllowed ro)] ∧
    setupRootAllowed true =
      ({AccessFs.ReadFile, AccessFs.ReadDir, AccessFs.Execute} : Finset AccessFs) ∧
    setupRootAllowed false = AccessFs.from_all ABI.V1 ∧
    AccessFs.Truncate ∉ setupRootAllowed false ∧
    printRootAllowed true = setupRootAllowed true ∧
    printRootAllowed false =
      ({AccessFs.ReadFile, AccessFs.ReadDir, AccessFs.Execute, AccessFs.WriteFile,
        AccessFs.RemoveFile, AccessFs.RemoveDir, AccessFs.Truncate} : Finset AccessFs) := by
  refine ⟨?_, by decide, by rfl, by decide, by decide, by decide⟩
  simp [rootRules, hn]

/-- C4 (witness): scenario B — degraded mode on root `/usr`, read-only:
one rule for `/usr` whose allowed set is {ReadFile, ReadDir, Execute}. -/
theorem c4_witness :
    rootRules none "/usr" true = Except.ok [("/usr", setupRootAllowed true)] ∧
    setupRootAllowed true =
      ({AccessFs.ReadFile, AccessFs.ReadDir, AccessFs.Execute} : Finset AccessFs) ∧
    setupRootAllowed false = AccessFs.from_all ABI.V1 ∧
    AccessFs.Truncate ∉ setupRootAllowed false ∧
    printRootAllowed true = setupRootAllowed true ∧
    printRootAllowed false =
      ({AccessFs.ReadFile, AccessFs.ReadDir, AccessFs.Execute, AccessFs.WriteFile,
        AccessFs.RemoveFile, AccessFs.RemoveDir, AccessFs.Truncate} : Finset AccessFs) :=
  c4_degraded_root_rule none "/usr" "/usr" true rfl

/-- C5: for every profile, the compiled handled mask is exactly the union
of the ControlAccess-derived set and every group's Permissions-derived
set; scenario A (one group `projects` with `/tmp/proj` and
`{read_file, read_dir}`, all-false ControlAccess) yields handled mask
{ReadFile, ReadDir} and exactly the one rule
`/tmp/proj → {ReadFile, ReadDir}`. -/
theorem c5_handled_mask_union (p : Profile) :
    profileHandled p =
      access_from_control p.control_access ∪
        List.foldr (fun a acc => a ∪ acc) ∅
          (p.access_roots.map (fun g => access_from_permissions g.2.permissions)) ∧
    profileHandled scenarioAProfile = {AccessFs.ReadFile, AccessFs.ReadDir} ∧
    profileRules none scenarioAProfile =
      Except.ok [("/tmp/proj", ({AccessFs.ReadDir, AccessFs.ReadFile} : Finset AccessFs))] := by
  refine ⟨?_, by decide, by rfl⟩
  unfold profileHandled
  rw [foldl_union_eq]
  simp

/-- C6: the compiler keeps one independent rule per (group, path)
occurrence — the compiled list's length is the total path count, nothing
is merged or deduplicated — and for the two-group profile sharing the
identical path `/tmp/shared` it emits two distinct rules whose combined
kernel effect is the union of their allowed sets. -/
theorem c6_no_merge (home : Option String) (p : Profile)
    (rules : List (String × Finset AccessFs))
    (h : profileRules home p = Except.ok rules) :
    rules.length = (p.access_roots.map (fun g => g.2.paths.length)).sum ∧
    profileRules none sharedPathProfile =
      Except.ok [("/tmp/shared", ({AccessFs.ReadFile} : Finset AccessFs)),
                 ("/tmp/shared", ({AccessFs.WriteFile} : Finset AccessFs))] ∧
    effectiveAllowed
        [("/tmp/shared", ({AccessFs.ReadFile} : Finset AccessFs)),
         ("/tmp/shared", ({AccessFs.WriteFile} : Finset AccessFs))] "/tmp/shared" =
      ({AccessFs.ReadFile} : Finset AccessFs) ∪ {AccessFs.WriteFile} :=
  ⟨rulesOfGroups_ok_length home p.access_roots rules h, by rfl, by decide⟩

/-- C6 (witness): the shared-path profile's two (group, path) occurrences
compile to a rule list of length two. -/
theorem c6_witness :
    ([("/tmp/shared", ({AccessFs.ReadFile} : Finset AccessFs)),
      ("/tmp/shared", ({AccessFs.WriteFile} : Finset AccessFs))] :
        List (String × Finset AccessFs)).length =
      (sharedPathProfile.access_roots.map (fun g => g.2.paths.length)).sum :=
  (c6_no_merge none sharedPathProfile
    [("/tmp/shared", ({AccessFs.ReadFile} : Finset AccessFs)),
     ("/tmp/shared", ({AccessFs.WriteFile} : Finset AccessFs))] (by rfl)).1

/-- C7: for every probe outcome, the negotiated capability set lies
between `from_all(ABI::V1)` (oldest baseline) and `from_all(ABI::V2)`
(newest known revision), and when no revision's probe succeeds it is
exactly the oldest baseline set, not an error. -/
theorem c7_supported_access_bounds (probe : ABI → Bool) :
    AccessFs.from_all ABI.V1 ⊆ supported_access probe ∧
    supported_access probe ⊆ AccessFs.from_all ABI.V2 ∧
    (probe ABI.V2 = false → probe ABI.V1 = false →
      supported_access probe = AccessFs.from_all ABI.V1) := by
  cases h2 : probe ABI.V2 with
  | true =>
    have he : supported_access probe = AccessFs.from_all ABI.V2 := by
      simp [supported_access, List.find?, h2]
    rw [he]
    exact ⟨by decide, by decide, fun hcon _ => Bool.noConfusion hcon⟩
  | false =>
    cases h1 : probe ABI.V1 with
    | true =>
      have he : supported_access probe = AccessFs.from_all ABI.V1 := by
        simp [supported_access, List.find?, h2, h1]
      rw [he]
      exact ⟨by decide, by decide, fun _ _ => rfl⟩
    | false =>
      have he : supported_access probe = AccessFs.from_all ABI.V1 := by
        simp [supported_access, List.find?, h2, h1]
      rw [he]
      exact ⟨by decide, by decide, fun _ _ => rfl⟩

/-- C7 (witness): with every probe failing, negotiation returns exactly
the oldest baseline set `from_all(ABI::V1)`. -/
theorem c7_witness : supported_access (fun _ => false) = AccessFs.from_all ABI.V1 :=
  (c7_supported_access_bounds (fun _ => false)).2.2 rfl rfl

/-- C8: once the pre-spawn checks pass, a child exiting with an explicit
code has that code returned unchanged, and a signal-terminated child (no
exit code) maps to the fixed fallback status 1, which is non-zero. -/
theorem c8_exit_code_mapping (home : Option String) (isDir : String → Bool)
    (b : String) (args : List String) (spec : Option CommandSpec) (c : Int)
    (hprep : prepareSpec home isDir spec = Except.ok ()) :
    run_command home isDir (b :: args) spec (Except.ok (some c)) = RunOutcome.spawned c ∧
    run_command home isDir (b :: args) spec (Except.ok none) = RunOutcome.spawned 1 ∧
    (1 : Int) ≠ 0 := by
  refine ⟨?_, ?_, by decide⟩ <;> simp [run_command, hprep]

/-- C8 (witness): exit code 7 is passed through; signal death maps to the
non-zero fallback 1. -/
theorem c8_witness :
    run_command none (fun _ => true) ["/bin/true"] none (Except.ok (some 7)) =
      RunOutcome.spawned 7 ∧
    run_command none (fun _ => true) ["/bin/true"] none (Except.ok none) =
      RunOutcome.spawned 1 ∧
    (1 : Int) ≠ 0 :=
  c8_exit_code_mapping none (fun _ => true) "/bin/true" [] none 7 rfl

/-- C9: with a working directory present, the launcher normalizes it with
the same `normalize_path` used for rule paths and fails before spawning
when the normalized path is not a directory; with it absent (and no env
overlay) no directory check occurs and the spawn proceeds for any
filesystem oracle. -/
theorem c9_working_dir_check (home : Option String) (isDir : String → Bool)
    (b : String) (args : List String) (s : CommandSpec) (wd cwd : String)
    (st : Except String (Option Int))
    (hwd : s.working_dir = some wd)
    (hn : normalize_path home wd = Except.ok cwd)
    (hdir : isDir cwd = false) :
    run_command home isDir (b :: args) (some s) st =
      RunOutcome.errBeforeSpawn
        ("working_dir does not exist or is not a directory: " ++ cwd) ∧
    (∀ (s2 : CommandSpec) (d : String → Bool),
        s2.working_dir = none → s2.env = none →
        run_command home d (b :: args) (some s2) (Except.ok (some 0)) =
          RunOutcome.spawned 0) := by
  constructor
  · simp [run_command, prepareSpec, checkWorkingDir, hwd, hn, hdir]
  · intro s2 d h1 h2
    simp [run_command, prepareSpec, checkWorkingDir, h1, h2]

/-- C9 (witness): a spec whose working directory `/nonexistent` is not a
directory yields the configuration error before any spawn. -/
theorem c9_witness :
    run_command none (fun _ => false) ["/bin/true"] (some wdSpec) (Except.ok (some 0)) =
      RunOutcome.errBeforeSpawn
        ("working_dir does not exist or is not a directory: " ++ "/nonexistent") :=
  (c9_working_dir_check none (fun _ => false) "/bin/true" [] wdSpec "/nonexistent"
    "/nonexistent" (Except.ok (some 0)) rfl rfl rfl).1

/-- C10: for a parsed config, the version check fails exactly when the
version field is present and differs from 1; an absent version (and a
version equal to 1) is accepted unchanged. -/
theorem c10_version_check (cfg : Config) :
    ((∃ e, load_config_check cfg = Except.error e) ↔
      ∃ v, cfg.version = some v ∧ v ≠ 1) ∧
    (cfg.version = none → load_config_check cfg = Except.ok cfg) ∧
    (cfg.version = some 1 → load_config_check cfg = Except.ok cfg) := by
  cases hv : cfg.version with
  | none => simp [load_config_check, hv]
  | some v =>
    by_cases h1 : v = 1
    · subst h1
      simp [load_config_check, hv]
    · simp [load_config_check, hv, h1]

/-- C10 (witness): a config with no version field is accepted. -/
theorem c10_witness : load_config_check configNoVersion = Except.ok configNoVersion :=
  (c10_version_check configNoVersion).2.1 rfl

end AiSandboxLandlock
